import Mathlib

/-!
Verification of the TodoMVC component in `src/app.rs` (yew-todomvc).

The component's state (`struct App`) and its message-driven transition
function (`App::update`) are embedded shallowly.  Rust's `Vec<Todo>` becomes
`List Todo`; the in-place mutations of `update` become a pure transition
function.  Index-addressed messages (`Delete`, `Toggle`, `StartEdit`,
`UpdateItem`, `CompleteEdit`) panic in Rust when the index is out of range
(`Vec::remove` / `Index` panic); the embedding returns `Option AppState`,
with `none` exactly on the panicking branches.

The rendering machinery (`view`, `view_main`, `view_footer`) is not state
and is not embedded, except for the route-visibility predicate of
`App::view_todo` (the condition guarding the `<li>`), embedded as
`routeShows`, and the derived computation `App::all_completed`.

Persistence (`storage.store(STORAGE_KEY, Json(&self.todos))` and
`storage.restore(STORAGE_KEY)`) serialises `Todo` with serde where the
`editing` field carries `#[serde(skip)]`: it is omitted when storing and
filled with `bool::default() = false` when restoring.  The persisted
projection is embedded as `PersistedTodo` with `storeTodos`/`restoreTodos`.
-/

/-- `struct Todo` of `src/app.rs`: `text`, `completed`, and the transient
(`#[serde(skip)]`) `editing` flag. -/
structure Todo where
  text : String
  completed : Bool
  editing : Bool
deriving DecidableEq, Repr

/-- `Todo::new`: fresh todo from a text, not completed, not editing. -/
def Todo.new (text : String) : Todo :=
  { text := text, completed := false, editing := false }

/-- `enum AppRoute`: the three URL-fragment routes acting as view filters. -/
inductive AppRoute where
  | All
  | Active
  | Completed
deriving DecidableEq, Repr

/-- `enum Msg` of `src/app.rs`. -/
inductive Msg where
  | Nop
  | Update (s : String)
  | Create
  | Delete (index : Nat)
  | Toggle (index : Nat)
  | ToggleAll
  | ClearCompleted
  | StartEdit (index : Nat)
  | UpdateItem (index : Nat) (value : String)
  | CompleteEdit (index : Nat)
deriving DecidableEq, Repr

/-- The mutable state of `struct App` that `update` can touch: the todo
list, the draft input `value`, the pending `focus_edit` flag, and the
current route (held in `props`).  The `storage`, `link` and `NodeRef`
fields are runtime handles with no bearing on the transition function. -/
structure AppState where
  route : AppRoute
  todos : List Todo
  value : String
  focus_edit : Bool
deriving DecidableEq, Repr

/-- Rust's `str::trim`, used by the `Msg::Create` branch
(`self.value.trim()`): drop leading and trailing whitespace characters,
modelled over the string's character list. -/
def strTrim (s : String) : String :=
  ⟨((s.data.dropWhile Char.isWhitespace).reverse.dropWhile Char.isWhitespace).reverse⟩

/-- `App::all_completed`: `self.todos.iter().all(|todo| todo.completed)`. -/
def all_completed (todos : List Todo) : Bool :=
  todos.all (fun todo => todo.completed)

/-- `App::update`, one branch per `Msg` variant, in source order.
`none` models the panicking out-of-range branches of `Vec::remove` and
`Index for Vec`; every non-indexed branch is total.  The trailing
`storage.store` call of the source only mirrors `self.todos` outward and
does not change the state. -/
def update (s : AppState) (msg : Msg) : Option AppState :=
  match msg with
  | .Nop => some s
  | .Update v => some { s with value := v }
  | .Create =>
      let text := strTrim s.value
      if !text.isEmpty then
        some { s with todos := s.todos ++ [Todo.new text], value := "" }
      else
        some s
  | .Delete index =>
      if index < s.todos.length then
        some { s with todos := s.todos.eraseIdx index }
      else
        none
  | .Toggle index =>
      match s.todos[index]? with
      | some todo => some { s with todos := s.todos.set index { todo with completed := !todo.completed } }
      | none => none
  | .ToggleAll =>
      let completed := !all_completed s.todos
      some { s with todos := s.todos.map (fun todo => { todo with completed := completed }) }
  | .ClearCompleted =>
      some { s with todos := s.todos.filter (fun todo => !todo.completed) }
  | .StartEdit index =>
      match s.todos[index]? with
      | some todo =>
          some { s with todos := s.todos.set index { todo with editing := true }, focus_edit := true }
      | none => none
  | .UpdateItem index v =>
      match s.todos[index]? with
      | some todo => some { s with todos := s.todos.set index { todo with text := v } }
      | none => none
  | .CompleteEdit index =>
      match s.todos[index]? with
      | some todo => some { s with todos := s.todos.set index { todo with editing := false } }
      | none => none

/-- The serde projection of `Todo`: `{text, completed}`, `editing` skipped. -/
structure PersistedTodo where
  text : String
  completed : Bool
deriving DecidableEq, Repr

/-- Serialisation for `storage.store(STORAGE_KEY, Json(&self.todos))`:
each todo contributes its `text` and `completed`; `editing` is skipped. -/
def storeTodos (todos : List Todo) : List PersistedTodo :=
  todos.map (fun todo => { text := todo.text, completed := todo.completed })

/-- Deserialisation in `App::create` via `storage.restore(STORAGE_KEY)`:
each record yields a todo whose skipped `editing` field takes
`bool::default() = false`. -/
def restoreTodos (records : List PersistedTodo) : List Todo :=
  records.map (fun record => { text := record.text, completed := record.completed, editing := false })

/-- The visibility condition of `App::view_todo`: a todo is rendered iff
`route == All || route == Active && !completed || route == Completed && completed`. -/
def routeShows (route : AppRoute) (todo : Todo) : Bool :=
  route == AppRoute.All
    || (route == AppRoute.Active && !todo.completed)
    || (route == AppRoute.Completed && todo.completed)

/-- The list of rendered todos under a route: `view_main` iterates over all
indices and `view_todo` drops the invisible ones. -/
def visibleTodos (route : AppRoute) (todos : List Todo) : List Todo :=
  todos.filter (routeShows route)

/-- Claim C1: `Msg::Create` trims the draft; if the trimmed text is
non-empty it appends a todo with that text, `completed = false`,
`editing = false` to the end of the list and clears the draft; if the
trimmed text is empty the whole state is unchanged. -/
theorem create_spec (s : AppState) :
    ((strTrim s.value).isEmpty = false →
        update s Msg.Create =
          some { s with
                  todos := s.todos ++
                    [{ text := strTrim s.value, completed := false, editing := false }],
                  value := "" }) ∧
    ((strTrim s.value).isEmpty = true → update s Msg.Create = some s) := by
  constructor <;> intro h <;> simp [update, Todo.new, h]

/-- Witness for C1 at the spec examples: creating from draft
"  buy milk  " appends the trimmed todo and clears the draft; creating
from the whitespace-only draft "  " changes nothing. -/
theorem create_spec_witness :
    update { route := AppRoute.All, todos := [], value := "  buy milk  ",
             focus_edit := false } Msg.Create =
      some { route := AppRoute.All,
             todos := [{ text := "buy milk", completed := false, editing := false }],
             value := "", focus_edit := false } ∧
    update { route := AppRoute.All, todos := [], value := "  ",
             focus_edit := false } Msg.Create =
      some { route := AppRoute.All, todos := [], value := "  ",
             focus_edit := false } :=
  ⟨(create_spec _).1 (by decide), (create_spec _).2 (by decide)⟩

/-- Claim C2: `Msg::ToggleAll` sets every item's `completed` to the single
boolean value `!all_completed`; hence if some item is not completed all
items become completed, and if all are completed all become not completed.
Texts are untouched. -/
theorem toggleAll_spec (s s' : AppState) (h : update s Msg.ToggleAll = some s') :
    s'.todos = s.todos.map (fun todo => { todo with completed := !all_completed s.todos }) ∧
    (all_completed s.todos = false → s'.todos.all (fun todo => todo.completed) = true) ∧
    (all_completed s.todos = true → s'.todos.all (fun todo => !todo.completed) = true) := by
  simp only [update, Option.some.injEq] at h
  subst h
  refine ⟨rfl, ?_, ?_⟩ <;> intro h1 <;> simp [List.all_eq_true, h1]

/-- Witness for C2 at the spec example: on the two-item list with
completed flags false, true, one `ToggleAll` makes both completed, and a
second `ToggleAll` makes both not completed. -/
theorem toggleAll_spec_witness :
    ([⟨"A", true, false⟩, ⟨"B", true, false⟩] : List Todo).all
        (fun todo => todo.completed) = true ∧
    ([⟨"A", false, false⟩, ⟨"B", false, false⟩] : List Todo).all
        (fun todo => !todo.completed) = true := by
  constructor
  · exact (toggleAll_spec
      ⟨AppRoute.All, [⟨"A", false, false⟩, ⟨"B", true, false⟩], "", false⟩
      ⟨AppRoute.All, [⟨"A", true, false⟩, ⟨"B", true, false⟩], "", false⟩
      (by decide)).2.1 (by decide)
  · exact (toggleAll_spec
      ⟨AppRoute.All, [⟨"A", true, false⟩, ⟨"B", true, false⟩], "", false⟩
      ⟨AppRoute.All, [⟨"A", false, false⟩, ⟨"B", false, false⟩], "", false⟩
      (by decide)).2.2 (by decide)

/-- Claim C3: `Msg::ClearCompleted` removes exactly the completed todos:
the result is a sublist of the original (relative order preserved), and
each todo occurs in it never when completed and exactly as often as
before when not completed. -/
theorem clearCompleted_spec (s s' : AppState)
    (h : update s Msg.ClearCompleted = some s') :
    s'.todos.Sublist s.todos ∧
    ∀ t : Todo, s'.todos.count t = if t.completed then 0 else s.todos.count t := by
  simp only [update, Option.some.injEq] at h
  subst h
  refine ⟨List.filter_sublist _, fun t => ?_⟩
  by_cases hc : t.completed
  · simp only [hc, if_pos]
    rw [List.count_eq_zero]
    intro hmem
    have := (List.mem_filter.mp hmem).2
    simp [hc] at this
  · simp only [hc, if_neg]
    exact List.count_filter (by simp [hc])

/-- Witness for C3 at the spec example: clearing
[A(false), B(true), C(true), D(false)] yields [A, D] as a sublist of the
original, and B no longer occurs. -/
theorem clearCompleted_spec_witness :
    ([⟨"A", false, false⟩, ⟨"D", false, false⟩] : List Todo).Sublist
      [⟨"A", false, false⟩, ⟨"B", true, false⟩, ⟨"C", true, false⟩,
       ⟨"D", false, false⟩] ∧
    ([⟨"A", false, false⟩, ⟨"D", false, false⟩] : List Todo).count
        ⟨"B", true, false⟩ =
      if (⟨"B", true, false⟩ : Todo).completed then 0
      else ([⟨"A", false, false⟩, ⟨"B", true, false⟩, ⟨"C", true, false⟩,
             ⟨"D", false, false⟩] : List Todo).count ⟨"B", true, false⟩ := by
  have h := clearCompleted_spec
    ⟨AppRoute.All,
     [⟨"A", false, false⟩, ⟨"B", true, false⟩, ⟨"C", true, false⟩,
      ⟨"D", false, false⟩], "", false⟩
    ⟨AppRoute.All, [⟨"A", false, false⟩, ⟨"D", false, false⟩], "", false⟩
    (by decide)
  exact ⟨h.1, h.2 ⟨"B", true, false⟩⟩

/-- Claim C4: storing a todo list keeps only `{text, completed}`, and
restoring a stored list reproduces the same `{text, completed}` pairs in
the same order with every restored `editing` flag false. -/
theorem persist_roundtrip (todos : List Todo) :
    (restoreTodos (storeTodos todos)).map (fun t => (t.text, t.completed)) =
      todos.map (fun t => (t.text, t.completed)) ∧
    (restoreTodos (storeTodos todos)).all (fun t => !t.editing) = true := by
  constructor
  · simp [restoreTodos, storeTodos, List.map_map, Function.comp]
  · simp [restoreTodos, List.all_eq_true]

/-- Claim C5: for a valid index i, `Msg::Delete i` succeeds and produces
the list with the element at i removed — the elements before i followed
by the elements after i, in order — of length one less. -/
theorem delete_spec (s : AppState) (i : Nat) (h : i < s.todos.length) :
    ∃ s', update s (Msg.Delete i) = some s' ∧
      s'.todos = s.todos.take i ++ s.todos.drop (i + 1) ∧
      s'.todos.length = s.todos.length - 1 := by
  refine ⟨{ s with todos := s.todos.eraseIdx i }, by simp [update, h], ?_, ?_⟩
  · exact List.eraseIdx_eq_take_drop_succ s.todos i
  · have h1 := List.length_eraseIdx_add_one h
    show (s.todos.eraseIdx i).length = s.todos.length - 1
    omega

/-- Witness for C5: deleting index 1 from a three-item list keeps items 0
and 2 in order. -/
theorem delete_spec_witness :
    0 < 3 ∧
    (∃ s', update ⟨AppRoute.All,
        [⟨"A", false, false⟩, ⟨"B", true, false⟩, ⟨"C", false, false⟩],
        "", false⟩ (Msg.Delete 1) = some s' ∧
      s'.todos = [⟨"A", false, false⟩] ++ [⟨"C", false, false⟩] ∧
      s'.todos.length = 3 - 1) :=
  ⟨by decide, delete_spec _ 1 (by decide)⟩

/-- Claim C6: with an in-range index every index-addressed message
(`Delete`, `Toggle`, `StartEdit`, `UpdateItem`, `CompleteEdit`) succeeds,
and with an out-of-range index each of them reaches the panicking branch
(modelled as `none`), with no validation or recovery at the call site. -/
theorem index_ops_spec (s : AppState) (i : Nat) (v : String) :
    (i < s.todos.length →
      (update s (Msg.Delete i)).isSome = true ∧
      (update s (Msg.Toggle i)).isSome = true ∧
      (update s (Msg.StartEdit i)).isSome = true ∧
      (update s (Msg.UpdateItem i v)).isSome = true ∧
      (update s (Msg.CompleteEdit i)).isSome = true) ∧
    (s.todos.length ≤ i →
      update s (Msg.Delete i) = none ∧
      update s (Msg.Toggle i) = none ∧
      update s (Msg.StartEdit i) = none ∧
      update s (Msg.UpdateItem i v) = none ∧
      update s (Msg.CompleteEdit i) = none) := by
  constructor
  · intro h
    have ht := List.getElem?_eq_getElem h
    refine ⟨?_, ?_, ?_, ?_, ?_⟩ <;> simp [update, h, ht]
  · intro h
    have ht := List.getElem?_eq_none h
    have h2 := Nat.not_lt.mpr h
    refine ⟨?_, ?_, ?_, ?_, ?_⟩ <;> simp [update, h2, ht]

/-- Witness for C6: on a one-item list, index 0 is accepted by all five
index-addressed messages and index 5 sends each of them to the panic
branch. -/
theorem index_ops_spec_witness :
    ((update ⟨AppRoute.All, [⟨"A", false, false⟩], "", false⟩
        (Msg.Delete 0)).isSome = true ∧
      (update ⟨AppRoute.All, [⟨"A", false, false⟩], "", false⟩
        (Msg.Toggle 0)).isSome = true ∧
      (update ⟨AppRoute.All, [⟨"A", false, false⟩], "", false⟩
        (Msg.StartEdit 0)).isSome = true ∧
      (update ⟨AppRoute.All, [⟨"A", false, false⟩], "", false⟩
        (Msg.UpdateItem 0 "x")).isSome = true ∧
      (update ⟨AppRoute.All, [⟨"A", false, false⟩], "", false⟩
        (Msg.CompleteEdit 0)).isSome = true) ∧
    (update ⟨AppRoute.All, [⟨"A", false, false⟩], "", false⟩
        (Msg.Delete 5) = none ∧
      update ⟨AppRoute.All, [⟨"A", false, false⟩], "", false⟩
        (Msg.Toggle 5) = none ∧
      update ⟨AppRoute.All, [⟨"A", false, false⟩], "", false⟩
        (Msg.StartEdit 5) = none ∧
      update ⟨AppRoute.All, [⟨"A", false, false⟩], "", false⟩
        (Msg.UpdateItem 5 "x") = none ∧
      update ⟨AppRoute.All, [⟨"A", false, false⟩], "", false⟩
        (Msg.CompleteEdit 5) = none) :=
  ⟨(index_ops_spec ⟨AppRoute.All, [⟨"A", false, false⟩], "", false⟩ 0 "x").1
      (by decide),
   (index_ops_spec ⟨AppRoute.All, [⟨"A", false, false⟩], "", false⟩ 5 "x").2
      (by decide)⟩

/-- Claim C7: `Msg::UpdateItem i v` overwrites item i's text with v
verbatim (no trimming, no emptiness check), and a following
`Msg::CompleteEdit i` only clears the editing flag, leaving the text —
including the empty string — and the completed flag as they were. -/
theorem edit_commit_spec (s s1 s2 : AppState) (i : Nat) (v : String) (t : Todo)
    (ht : s.todos[i]? = some t)
    (h1 : update s (Msg.UpdateItem i v) = some s1)
    (h2 : update s1 (Msg.CompleteEdit i) = some s2) :
    s1.todos[i]? = some { t with text := v } ∧
    s2.todos[i]? = some { t with text := v, editing := false } := by
  obtain ⟨hlen, -⟩ := List.getElem?_eq_some_iff.mp ht
  simp only [update, ht, Option.some.injEq] at h1
  subst h1
  have hs1 : (s.todos.set i { t with text := v })[i]? = some { t with text := v } :=
    List.getElem?_set_self (by simpa using hlen)
  simp only [update, hs1, Option.some.injEq] at h2
  subst h2
  refine ⟨hs1, ?_⟩
  exact List.getElem?_set_self (by simpa using hlen)

/-- Witness for C7: committing the edit of the single item after typing
the empty string leaves its text empty (and the editing flag cleared),
with no trimming or rejection, unlike create. -/
theorem edit_commit_spec_witness :
    (⟨AppRoute.All, [⟨"", false, true⟩], "", false⟩ : AppState).todos[0]? =
        some ⟨"", false, true⟩ ∧
    (⟨AppRoute.All, [⟨"", false, false⟩], "", false⟩ : AppState).todos[0]? =
        some ⟨"", false, false⟩ :=
  edit_commit_spec
    ⟨AppRoute.All, [⟨"old text", false, true⟩], "", false⟩
    ⟨AppRoute.All, [⟨"", false, true⟩], "", false⟩
    ⟨AppRoute.All, [⟨"", false, false⟩], "", false⟩
    0 "" ⟨"old text", false, true⟩ (by decide) (by decide) (by decide)

/-- Claim C8: `Msg::StartEdit i` sets item i's editing flag and the
pending focus-edit flag, and nothing else: item i keeps its text and
completed flag, every other item is untouched (in particular an editing
flag already set on another item stays set), and the draft and route are
unchanged. -/
theorem startEdit_spec (s s' : AppState) (i : Nat) (t : Todo)
    (ht : s.todos[i]? = some t)
    (h : update s (Msg.StartEdit i) = some s') :
    s'.focus_edit = true ∧
    s'.todos[i]? = some { t with editing := true } ∧
    (∀ j, j ≠ i → s'.todos[j]? = s.todos[j]?) ∧
    s'.value = s.value ∧ s'.route = s.route := by
  obtain ⟨hlen, -⟩ := List.getElem?_eq_some_iff.mp ht
  simp only [update, ht, Option.some.injEq] at h
  subst h
  refine ⟨rfl, List.getElem?_set_self (by simpa using hlen), ?_, rfl, rfl⟩
  intro j hj
  exact List.getElem?_set_ne (Ne.symm hj)

/-- Witness for C8: starting to edit item 1 while item 0 is already in
edit mode leaves item 0's editing flag set, so both items are editing
simultaneously, and sets the focus-edit flag. -/
theorem startEdit_spec_witness :
    (⟨AppRoute.All, [⟨"A", false, true⟩, ⟨"B", false, true⟩], "",
        true⟩ : AppState).todos[0]? = some ⟨"A", false, true⟩ ∧
    (⟨AppRoute.All, [⟨"A", false, true⟩, ⟨"B", false, true⟩], "",
        true⟩ : AppState).todos[1]? = some ⟨"B", false, true⟩ ∧
    (⟨AppRoute.All, [⟨"A", false, true⟩, ⟨"B", false, true⟩], "",
        true⟩ : AppState).focus_edit = true := by
  have h := startEdit_spec
    ⟨AppRoute.All, [⟨"A", false, true⟩, ⟨"B", false, false⟩], "", true⟩
    ⟨AppRoute.All, [⟨"A", false, true⟩, ⟨"B", false, true⟩], "", true⟩
    1 ⟨"B", false, false⟩ (by decide) (by decide)
  refine ⟨?_, h.2.1, h.1⟩
  rw [h.2.2.1 0 (by decide)]
  decide

/-- Claim C9: the rendered todos are all of the list under route All,
exactly the not-completed ones in order under Active, and exactly the
completed ones in order under Completed; the list itself is never
changed, `visibleTodos` being a pure filter. -/
theorem visible_spec (l : List Todo) :
    visibleTodos AppRoute.All l = l ∧
    visibleTodos AppRoute.Active l = l.filter (fun t => !t.completed) ∧
    visibleTodos AppRoute.Completed l = l.filter (fun t => t.completed) := by
  refine ⟨?_, ?_, ?_⟩
  · exact List.filter_eq_self.mpr (fun t _ => rfl)
  · exact List.filter_congr (fun t _ => by obtain ⟨x, c, e⟩ := t; cases c <;> rfl)
  · exact List.filter_congr (fun t _ => by obtain ⟨x, c, e⟩ := t; cases c <;> rfl)

/-- Claim C10: on the empty todo list `all_completed` is vacuously true,
and `Msg::ToggleAll` leaves the state unchanged — a no-op, not an
error. -/
theorem toggleAll_empty (s : AppState) (h : s.todos = []) :
    all_completed s.todos = true ∧ update s Msg.ToggleAll = some s := by
  obtain ⟨route, todos, v, f⟩ := s
  simp only at h
  subst h
  exact ⟨rfl, rfl⟩

/-- Witness for C10 on a concrete empty-list state. -/
theorem toggleAll_empty_witness :
    all_completed (⟨AppRoute.All, [], "draft", true⟩ : AppState).todos = true ∧
    update ⟨AppRoute.All, [], "draft", true⟩ Msg.ToggleAll =
      some ⟨AppRoute.All, [], "draft", true⟩ :=
  toggleAll_empty _ rfl
